import Mathlib

/-!
Verification of the conduit conditional-get middleware.

The development shallowly embeds the freshness evaluator, the HTTP-date
parser and the response rewriter of conduit-conditional-get/src/lib.rs.
Header values are byte lists, header maps are ordered association lists
with case-insensitive name matching, and the three date grammars of the
time crate format strings are implemented directly over character lists.
-/

namespace Conduit

/-! ## Bytes and header maps -/

abbrev Bytes := List Nat

/-- An ordered multimap from header name to byte-string value, modelling
http::HeaderMap.  A name may occur several times; insertion order is the
list order. -/
abbrev HeaderMap := List (String × Bytes)

/-- ASCII lower-casing of a single character, used for case-insensitive
header-name matching. -/
def asciiLower (c : Char) : Char :=
  if 'A' ≤ c ∧ c ≤ 'Z' then Char.ofNat (c.toNat + 32) else c

/-- Case-folded form of a header name. -/
def foldName (s : String) : List Char := s.toList.map asciiLower

def IF_MODIFIED_SINCE : String := "if-modified-since"

def IF_NONE_MATCH : String := "if-none-match"

def LAST_MODIFIED : String := "last-modified"

def ETAG : String := "etag"

def CONTENT_TYPE : String := "content-type"

def CONTENT_LENGTH : String := "content-length"

/-- All values stored under a case-insensitive header name, in order,
modelling HeaderMap::get_all. -/
def get_all (headers : HeaderMap) (name : String) : List Bytes :=
  (headers.filter (fun p => foldName p.1 == foldName name)).map Prod.snd

/-- Embeds get_and_concat_header: the single-value case is the borrowed
fast path guarded by the iterator size hint; otherwise the values are
collected and concatenated with no separator. -/
def get_and_concat_header (headers : HeaderMap) (name : String) : Bytes :=
  match get_all headers name with
  | [v] => v
  | values => values.flatten

/-- Embeds HeaderMap::remove: every value stored under the name is
dropped from the map. -/
def remove_header (headers : HeaderMap) (name : String) : HeaderMap :=
  headers.filter (fun p => foldName p.1 != foldName name)

/-! ## UTF-8 decoding, modelling std::str::from_utf8 -/

/-- Whether a byte is a UTF-8 continuation byte. -/
def isCont (b : Nat) : Bool := 0x80 ≤ b && b ≤ 0xBF

/-- Decodes one UTF-8 scalar value from the front of a byte list,
returning the code point and the remaining bytes.  The accepted shapes
are exactly the well-formed encodings (overlongs, surrogates and values
above 0x10FFFF are rejected), as in std::str::from_utf8. -/
def decodeOne : List Nat → Option (Nat × List Nat)
  | [] => none
  | b0 :: rest =>
    if b0 ≤ 0x7F then some (b0, rest)
    else if 0xC2 ≤ b0 ∧ b0 ≤ 0xDF then
      match rest with
      | b1 :: rest1 =>
        if isCont b1 then some ((b0 - 0xC0) * 0x40 + (b1 - 0x80), rest1) else none
      | [] => none
    else if b0 = 0xE0 then
      match rest with
      | b1 :: b2 :: rest2 =>
        if (0xA0 ≤ b1 && b1 ≤ 0xBF) && isCont b2 then
          some ((b1 - 0x80) * 0x40 + (b2 - 0x80), rest2)
        else none
      | _ => none
    else if (0xE1 ≤ b0 ∧ b0 ≤ 0xEC) ∨ b0 = 0xEE ∨ b0 = 0xEF then
      match rest with
      | b1 :: b2 :: rest2 =>
        if isCont b1 && isCont b2 then
          some ((b0 - 0xE0) * 0x1000 + (b1 - 0x80) * 0x40 + (b2 - 0x80), rest2)
        else none
      | _ => none
    else if b0 = 0xED then
      match rest with
      | b1 :: b2 :: rest2 =>
        if (0x80 ≤ b1 && b1 ≤ 0x9F) && isCont b2 then
          some (0xD000 + (b1 - 0x80) * 0x40 + (b2 - 0x80), rest2)
        else none
      | _ => none
    else if b0 = 0xF0 then
      match rest with
      | b1 :: b2 :: b3 :: rest3 =>
        if (0x90 ≤ b1 && b1 ≤ 0xBF) && isCont b2 && isCont b3 then
          some ((b1 - 0x80) * 0x1000 + (b2 - 0x80) * 0x40 + (b3 - 0x80), rest3)
        else none
      | _ => none
    else if 0xF1 ≤ b0 ∧ b0 ≤ 0xF3 then
      match rest with
      | b1 :: b2 :: b3 :: rest3 =>
        if isCont b1 && isCont b2 && isCont b3 then
          some ((b0 - 0xF0) * 0x40000 + (b1 - 0x80) * 0x1000
                  + (b2 - 0x80) * 0x40 + (b3 - 0x80), rest3)
        else none
      | _ => none
    else if b0 = 0xF4 then
      match rest with
      | b1 :: b2 :: b3 :: rest3 =>
        if (0x80 ≤ b1 && b1 ≤ 0x8F) && isCont b2 && isCont b3 then
          some (0x100000 + (b1 - 0x80) * 0x1000 + (b2 - 0x80) * 0x40 + (b3 - 0x80), rest3)
        else none
      | _ => none
    else none

/-- Fuelled decoding loop; decodeOne consumes at least one byte per step,
so a fuel equal to the list length always suffices. -/
def decodeUtf8Go : Nat → List Nat → Option (List Char)
  | _, [] => some []
  | 0, _ :: _ => none
  | fuel + 1, l =>
    match decodeOne l with
    | none => none
    | some (c, rest) =>
      match decodeUtf8Go fuel rest with
      | none => none
      | some cs => some (Char.ofNat c :: cs)

/-- Decodes a byte list as UTF-8 text, modelling std::str::from_utf8:
some on well-formed input, none on any encoding error. -/
def decodeUtf8 (l : List Nat) : Option (List Char) := decodeUtf8Go l.length l

/-! ## Date model, modelling time::PrimitiveDateTime / OffsetDateTime -/

/-- A civil date-time at second resolution; HTTP dates carry no
sub-second component. -/
structure PrimitiveDateTime where
  year : Int
  month : Nat
  day : Nat
  hour : Nat
  minute : Nat
  second : Nat
deriving DecidableEq

/-- All three grammars call assume_utc, so offsets are always zero and
an offset date-time is just the civil fields. -/
abbrev OffsetDateTime := PrimitiveDateTime

/-- Models PrimitiveDateTime::assume_utc: interpret the civil fields at
offset zero. -/
def PrimitiveDateTime.assume_utc (d : PrimitiveDateTime) : OffsetDateTime := d

def isLeapYear (y : Int) : Bool :=
  (y % 4 == 0 && y % 100 != 0) || y % 400 == 0

def days_in_month (y : Int) : Nat → Nat
  | 1 => 31
  | 2 => if isLeapYear y then 29 else 28
  | 3 => 31
  | 4 => 30
  | 5 => 31
  | 6 => 30
  | 7 => 31
  | 8 => 31
  | 9 => 30
  | 10 => 31
  | 11 => 30
  | 12 => 31
  | _ => 0

/-- Days since 1970-01-01 of a proleptic-Gregorian civil date, the
standard era-based computation with truncated integer division, as used
by the time crate when converting to a Unix timestamp. -/
def days_from_civil (y : Int) (m d : Nat) : Int :=
  let yA : Int := if m ≤ 2 then y - 1 else y
  let era : Int := (if 0 ≤ yA then yA else yA - 399).tdiv 400
  let yoe : Int := yA - era * 400
  let mp : Int := (Int.ofNat m + 9) % 12
  let doy : Int := (153 * mp + 2).tdiv 5 + Int.ofNat d - 1
  let doe : Int := yoe * 365 + yoe.tdiv 4 - yoe.tdiv 100 + doy
  era * 146097 + doe - 719468

/-- Models OffsetDateTime::unix_timestamp at second granularity. -/
def OffsetDateTime.unix_timestamp (d : OffsetDateTime) : Int :=
  days_from_civil d.year d.month d.day * 86400
    + (Int.ofNat d.hour * 3600 + Int.ofNat d.minute * 60 + Int.ofNat d.second)

/-! ## The three date grammars -/

def digitVal (c : Char) : Nat := c.toNat - '0'.toNat

/-- Parses exactly two decimal digits (zero-padded two-digit field). -/
def parse2 : List Char → Option (Nat × List Char)
  | c1 :: c2 :: rest =>
    if c1.isDigit && c2.isDigit then some (digitVal c1 * 10 + digitVal c2, rest)
    else none
  | _ => none

/-- Parses exactly four decimal digits (zero-padded four-digit year). -/
def parse4 : List Char → Option (Nat × List Char)
  | c1 :: c2 :: c3 :: c4 :: rest =>
    if c1.isDigit && c2.isDigit && c3.isDigit && c4.isDigit then
      some (((digitVal c1 * 10 + digitVal c2) * 10 + digitVal c3) * 10 + digitVal c4, rest)
    else none
  | _ => none

/-- Consumes an exact literal from the front of the input. -/
def expectLit : List Char → List Char → Option (List Char)
  | [], s => some s
  | c :: cs, d :: ds => if c = d then expectLit cs ds else none
  | _ :: _, [] => none

/-- First name in the list matching a prefix of the input, with its
index and the remaining input. -/
def matchFirstFrom : Nat → List (List Char) → List Char → Option (Nat × List Char)
  | _, [], _ => none
  | i, n :: ns, s =>
    match expectLit n s with
    | some rest => some (i, rest)
    | none => matchFirstFrom (i + 1) ns s

def weekdayAbbrevs : List (List Char) :=
  ["Mon".toList, "Tue".toList, "Wed".toList, "Thu".toList,
   "Fri".toList, "Sat".toList, "Sun".toList]

def monthAbbrevs : List (List Char) :=
  ["Jan".toList, "Feb".toList, "Mar".toList, "Apr".toList,
   "May".toList, "Jun".toList, "Jul".toList, "Aug".toList,
   "Sep".toList, "Oct".toList, "Nov".toList, "Dec".toList]

/-- The abbreviated English weekday name.  The parsed weekday
is not checked against the date: the date is assembled from the
year, month and day fields alone, as in the source's time library. -/
def parseWeekday (s : List Char) : Option (Nat × List Char) :=
  matchFirstFrom 0 weekdayAbbrevs s

/-- The abbreviated English month name, as month number 1-12. -/
def parseMonthName (s : List Char) : Option (Nat × List Char) :=
  match matchFirstFrom 0 monthAbbrevs s with
  | some (i, rest) => some (i + 1, rest)
  | none => none

/-- An hour:minute:second group, two digits each. -/
def parseHMS (s : List Char) : Option (Nat × Nat × Nat × List Char) := do
  let (h, s) ← parse2 s
  let s ← expectLit [':'] s
  let (mi, s) ← parse2 s
  let s ← expectLit [':'] s
  let (sec, s) ← parse2 s
  pure (h, mi, sec, s)

/-- Range validation performed when the time library assembles a date
and a time from the parsed fields: month 1-12, day within the month,
hour below 24, minute and second below 60. -/
def mk_datetime (y : Int) (mo d h mi sec : Nat) : Option PrimitiveDateTime :=
  if 1 ≤ mo ∧ mo ≤ 12 ∧ 1 ≤ d ∧ d ≤ days_in_month y mo
      ∧ h ≤ 23 ∧ mi ≤ 59 ∧ sec ≤ 59 then
    some (PrimitiveDateTime.mk y mo d h mi sec)
  else none

/-- Two-digit years 00-68 map to 2000-2068 and 69-99 to 1969-1999, the
POSIX century pivot. -/
def year_from_two_digits (y2 : Nat) : Int :=
  if y2 ≤ 68 then Int.ofNat (2000 + y2) else Int.ofNat (1900 + y2)

/-- RFC 1123 style grammar, the first fallback: weekday name, a comma
and space, two-digit day, space, month name, space, four-digit year,
space, hour:minute:second, the literal GMT, nothing trailing. -/
def parse_rfc1123 (s : List Char) : Option OffsetDateTime := do
  let (_, s) ← parseWeekday s
  let s ← expectLit ", ".toList s
  let (d, s) ← parse2 s
  let s ← expectLit " ".toList s
  let (mo, s) ← parseMonthName s
  let s ← expectLit " ".toList s
  let (y, s) ← parse4 s
  let s ← expectLit " ".toList s
  let (h, mi, sec, s) ← parseHMS s
  let s ← expectLit " GMT".toList s
  if s.isEmpty then (mk_datetime (Int.ofNat y) mo d h mi sec).map PrimitiveDateTime.assume_utc
  else none

/-- RFC 850 style grammar, the second fallback: weekday name, a comma
and space, two-digit day, dash, two-digit numeric month, dash,
two-digit year, space, hour:minute:second, the literal GMT.  The
numeric month is a quirk preserved from the source. -/
def parse_rfc850 (s : List Char) : Option OffsetDateTime := do
  let (_, s) ← parseWeekday s
  let s ← expectLit ", ".toList s
  let (d, s) ← parse2 s
  let s ← expectLit "-".toList s
  let (mo, s) ← parse2 s
  let s ← expectLit "-".toList s
  let (y2, s) ← parse2 s
  let s ← expectLit " ".toList s
  let (h, mi, sec, s) ← parseHMS s
  let s ← expectLit " GMT".toList s
  if s.isEmpty then
    (mk_datetime (year_from_two_digits y2) mo d h mi sec).map PrimitiveDateTime.assume_utc
  else none

/-- The asctime-like grammar, the last fallback: weekday name, space,
two-digit numeric month, a literal tab, two-digit day, space,
hour:minute:second, space, four-digit year.  The numeric month and the
tab are quirks preserved from the source. -/
def parse_asctime (s : List Char) : Option OffsetDateTime := do
  let (_, s) ← parseWeekday s
  let s ← expectLit " ".toList s
  let (mo, s) ← parse2 s
  let s ← expectLit ['\t'] s
  let (d, s) ← parse2 s
  let s ← expectLit " ".toList s
  let (h, mi, sec, s) ← parseHMS s
  let s ← expectLit " ".toList s
  let (y, s) ← parse4 s
  if s.isEmpty then (mk_datetime (Int.ofNat y) mo d h mi sec).map PrimitiveDateTime.assume_utc
  else none

/-- Embeds parse_http_date: the three grammars are tried in order,
first success wins, and any combination of failures is collapsed into
the single unit error. -/
def parse_http_date (s : List Char) : Except Unit OffsetDateTime :=
  match parse_rfc1123 s with
  | some t => Except.ok t
  | none =>
    match parse_rfc850 s with
    | some t => Except.ok t
    | none =>
      match parse_asctime s with
      | some t => Except.ok t
      | none => Except.error ()

/-! ## Requests, responses and the freshness evaluator -/

inductive Method
  | GET
  | HEAD
  | POST
  | PUT
  | DELETE
  | PATCH
  | OPTIONS
deriving DecidableEq

/-- The part of a request the middleware consults: its method and its
header map. -/
structure Request where
  method : Method
  headers : HeaderMap
deriving DecidableEq

/-- A response: status code, header map and body bytes. -/
structure Response where
  status : Nat
  headers : HeaderMap
  body : Bytes
deriving DecidableEq

/-- Embeds is_ok: the status is exactly 200. -/
def is_ok (response : Response) : Bool := response.status == 200

/-- Embeds etag_matches: the response's concatenated ETag bytes equal
the request's concatenated If-None-Match bytes. -/
def etag_matches (none_match : Bytes) (res : Response) : Bool :=
  get_and_concat_header res.headers ETAG == none_match

/-- Embeds is_modified_since: the response's concatenated Last-Modified
must be valid text that parses under one of the three grammars, and the
request instant's timestamp must be at least the response's. -/
def is_modified_since (modified_since : OffsetDateTime) (res : Response) : Bool :=
  match decodeUtf8 (get_and_concat_header res.headers LAST_MODIFIED) with
  | none => false
  | some chars =>
    match parse_http_date chars with
    | Except.error _ => false
    | Except.ok lm => decide (modified_since.unix_timestamp ≥ lm.unix_timestamp)

/-- The computation of the is_modified_since flag inside is_fresh.
none encodes the source's early return of false when the value is text
that fails all three date grammars; some b is the flag otherwise. -/
def ims_flag (modified_since : Bytes) (res : Response) : Option Bool :=
  match decodeUtf8 modified_since with
  | none => some true
  | some chars =>
    if chars.isEmpty then some true
    else
      match parse_http_date chars with
      | Except.error _ => none
      | Except.ok parsed => some (is_modified_since parsed res)

/-- Embeds is_fresh: both request validators empty means not fresh;
a date that fails to parse means not fresh without consulting the ETag;
otherwise the time flag and the ETag comparison are conjoined. -/
def is_fresh (req : Request) (res : Response) : Bool :=
  let modified_since := get_and_concat_header req.headers IF_MODIFIED_SINCE
  let none_match := get_and_concat_header req.headers IF_NONE_MATCH
  if modified_since.isEmpty && none_match.isEmpty then false
  else
    match ims_flag modified_since res with
    | none => false
    | some b => b && etag_matches none_match res

/-- Embeds ConditionalGet::after: a downstream error is propagated; for
a GET or HEAD request whose 200 response is fresh, the response becomes
an empty-bodied 304 with Content-Type and Content-Length removed;
everything else passes through unchanged. -/
def ConditionalGet.after {ε : Type} (req : Request) (res : Except ε Response) :
    Except ε Response :=
  match res with
  | Except.error e => Except.error e
  | Except.ok res =>
    match req.method with
    | Method.GET | Method.HEAD =>
      if is_ok res && is_fresh req res then
        Except.ok (Response.mk 304
          (remove_header (remove_header res.headers CONTENT_TYPE) CONTENT_LENGTH) [])
      else Except.ok res
    | _ => Except.ok res

/-! ## Reference definitions written from the spec's words -/

/-- Reference concatenation following the spec's words: the naive join
of all occurrences of the header, in order, with no separator. -/
def naive_concat (headers : HeaderMap) (name : String) : Bytes :=
  (get_all headers name).flatten

/-- Reference parser combination following the spec's words: an ordered
list of fallback grammars, first success wins, all failing collapses to
the single undifferentiated error. -/
def first_success (parsers : List (List Char → Option OffsetDateTime)) (s : List Char) :
    Except Unit OffsetDateTime :=
  match parsers with
  | [] => Except.error ()
  | p :: ps =>
    match p s with
    | some t => Except.ok t
    | none => first_success ps s

/-! ## Concrete inputs used by the witness theorems -/

/-- ASCII bytes of a string, for building concrete header values. -/
def strBytes (s : String) : Bytes := s.toList.map Char.toNat

def req_c1 : Request := Request.mk Method.GET [(IF_NONE_MATCH, strBytes "1234")]

def res_c1 : Response := Response.mk 200 [(ETAG, strBytes "1234")] (strBytes "hello")

def req_c2 : Request :=
  Request.mk Method.GET
    [(IF_MODIFIED_SINCE, strBytes "2021-01-01 00:00:00 +0000"),
     (IF_NONE_MATCH, strBytes "1234")]

def res_c2 : Response := Response.mk 200 [(ETAG, strBytes "1234")] (strBytes "hello")

def req_c3 : Request := Request.mk Method.GET []

def res_c3 : Response := Response.mk 200 [(ETAG, strBytes "1234")] (strBytes "hello")

def req_c4 : Request := Request.mk Method.GET [(IF_NONE_MATCH, strBytes "1234")]

def res_c4 : Response :=
  Response.mk 200
    [(CONTENT_TYPE, strBytes "text/plain"),
     (CONTENT_LENGTH, strBytes "5"),
     (ETAG, strBytes "1234")]
    (strBytes "hello")

def req_c5 : Request := Request.mk Method.POST [(IF_NONE_MATCH, strBytes "1234")]

def res_c5 : Response := Response.mk 200 [(ETAG, strBytes "1234")] (strBytes "hello")

def t_c6 : OffsetDateTime := PrimitiveDateTime.mk 1970 1 1 0 0 0

def res_c6 : Response :=
  Response.mk 200 [(LAST_MODIFIED, strBytes "Thu, 01 Jan 1970 00:00:00 GMT")] (strBytes "hello")

def t_c7 : OffsetDateTime := PrimitiveDateTime.mk 1970 1 1 0 0 0

def res_c7 : Response := Response.mk 200 [(LAST_MODIFIED, [0xC0])] (strBytes "hello")

/-! ## Helper lemmas -/

/-- The guard condition of is_fresh is false whenever at least one of
the two concatenations is non-empty. -/
theorem isEmpty_and_eq_false_of_not_both_nil {a b : Bytes}
    (h : ¬(a = [] ∧ b = [])) : (a.isEmpty && b.isEmpty) = false := by
  cases a with
  | nil =>
    cases b with
    | nil => exact absurd ⟨rfl, rfl⟩ h
    | cons x xs => rfl
  | cons x xs => rfl

/-! ## Claim theorems -/

/-- C1: whenever the concatenated If-Modified-Since value is actually
evaluated (at least one request validator is non-empty) and it yields a
time flag b — by parsing successfully or by passing as true through the
non-text or empty branches — is_fresh is exactly the conjunction of
that flag with the ETag comparison, and the ETag comparison holds
exactly when the concatenated If-None-Match bytes equal the
concatenated ETag bytes, two empty concatenations included. -/
theorem c1_fresh_is_conjunction (req : Request) (res : Response) (b : Bool)
    (hne : ¬(get_and_concat_header req.headers IF_MODIFIED_SINCE = [] ∧
        get_and_concat_header req.headers IF_NONE_MATCH = []))
    (hflag : ims_flag (get_and_concat_header req.headers IF_MODIFIED_SINCE) res = some b) :
    is_fresh req res
        = (b && etag_matches (get_and_concat_header req.headers IF_NONE_MATCH) res) ∧
      (etag_matches (get_and_concat_header req.headers IF_NONE_MATCH) res = true ↔
        get_and_concat_header req.headers IF_NONE_MATCH
          = get_and_concat_header res.headers ETAG) := by
  constructor
  · have hguard := isEmpty_and_eq_false_of_not_both_nil hne
    simp [is_fresh, hguard, hflag]
  · simp [etag_matches]
    exact eq_comm

/-- C1 witness: a request carrying only If-None-Match equal to the
response's ETag is fresh. -/
theorem c1_witness :
    ims_flag (get_and_concat_header req_c1.headers IF_MODIFIED_SINCE) res_c1 = some true ∧
    is_fresh req_c1 res_c1 = true :=
  ⟨rfl, (c1_fresh_is_conjunction req_c1 res_c1 true (by decide) rfl).1.trans rfl⟩

/-- C2: a concatenated If-Modified-Since value that is valid non-empty
text but fails all three date grammars makes is_fresh false for every
response, bypassing the ETag comparison. -/
theorem c2_bad_date_short_circuits (req : Request) (res : Response) (chars : List Char)
    (hdec : decodeUtf8 (get_and_concat_header req.headers IF_MODIFIED_SINCE) = some chars)
    (hne : chars ≠ [])
    (hbad : parse_http_date chars = Except.error ()) :
    is_fresh req res = false := by
  have hims : get_and_concat_header req.headers IF_MODIFIED_SINCE ≠ [] := by
    intro h0
    rw [h0] at hdec
    have h2 : (some [] : Option (List Char)) = some chars := hdec
    exact hne (Option.some.inj h2).symm
  have hguard : ((get_and_concat_header req.headers IF_MODIFIED_SINCE).isEmpty &&
      (get_and_concat_header req.headers IF_NONE_MATCH).isEmpty) = false := by
    cases hc : get_and_concat_header req.headers IF_MODIFIED_SINCE with
    | nil => exact absurd hc hims
    | cons x xs => rfl
  have hie : chars.isEmpty = false := by
    cases chars with
    | nil => exact absurd rfl hne
    | cons c cs => rfl
  have hflag : ims_flag (get_and_concat_header req.headers IF_MODIFIED_SINCE) res = none := by
    unfold ims_flag
    rw [hdec]
    simp [hie, hbad]
  simp [is_fresh, hguard, hflag]

/-- C2 witness: a timezone-offset-style date disqualifies freshness
even though the If-None-Match bytes equal the response's ETag. -/
theorem c2_witness :
    etag_matches (get_and_concat_header req_c2.headers IF_NONE_MATCH) res_c2 = true ∧
    is_fresh req_c2 res_c2 = false :=
  ⟨rfl, c2_bad_date_short_circuits req_c2 res_c2 "2021-01-01 00:00:00 +0000".toList
      rfl (by decide) rfl⟩

/-- C3: a request whose If-Modified-Since and If-None-Match
concatenations are both empty is never fresh, whatever the response. -/
theorem c3_no_validators_not_fresh (req : Request) (res : Response)
    (h1 : get_and_concat_header req.headers IF_MODIFIED_SINCE = [])
    (h2 : get_and_concat_header req.headers IF_NONE_MATCH = []) :
    is_fresh req res = false := by
  simp [is_fresh, h1, h2]

/-- C3 witness: a validator-free request is not fresh even against a
response carrying an ETag. -/
theorem c3_witness :
    get_and_concat_header req_c3.headers IF_MODIFIED_SINCE = [] ∧
    get_and_concat_header req_c3.headers IF_NONE_MATCH = [] ∧
    is_fresh req_c3 res_c3 = false :=
  ⟨rfl, rfl, c3_no_validators_not_fresh req_c3 res_c3 rfl rfl⟩

/-- C4: for a GET or HEAD request whose 200 response is fresh, the
middleware returns status 304 with an empty body and the headers equal
to the originals with Content-Type and Content-Length removed; every
other header pair of the original is still present. -/
theorem c4_rewrites_fresh_200_to_304 {ε : Type} (req : Request) (res : Response)
    (hm : req.method = Method.GET ∨ req.method = Method.HEAD)
    (hs : res.status = 200)
    (hf : is_fresh req res = true) :
    ConditionalGet.after req (Except.ok res : Except ε Response)
        = Except.ok (Response.mk 304
            (remove_header (remove_header res.headers CONTENT_TYPE) CONTENT_LENGTH) []) ∧
      ∀ p ∈ res.headers, foldName p.1 ≠ foldName CONTENT_TYPE →
        foldName p.1 ≠ foldName CONTENT_LENGTH →
        p ∈ remove_header (remove_header res.headers CONTENT_TYPE) CONTENT_LENGTH := by
  constructor
  · have hok : is_ok res = true := by
      show (res.status == 200) = true
      exact beq_iff_eq.mpr hs
    rcases hm with hm | hm <;> simp [ConditionalGet.after, hm, hok, hf]
  · intro p hp h1 h2
    simp [remove_header, List.mem_filter, bne_iff_ne, hp, h1, h2]

/-- C4 witness: a fresh GET against a 200 response with Content-Type,
Content-Length and ETag yields a 304 keeping only the ETag header. -/
theorem c4_witness :
    is_fresh req_c4 res_c4 = true ∧
    ConditionalGet.after req_c4 (Except.ok res_c4 : Except Unit Response)
      = Except.ok (Response.mk 304 [(ETAG, strBytes "1234")] []) :=
  ⟨rfl, (c4_rewrites_fresh_200_to_304 req_c4 res_c4 (Or.inl rfl) rfl rfl).1⟩

/-- C5: for any non-GET-or-HEAD method, or any status other than 200,
or any non-fresh evaluation, the successful response passes through
completely unchanged. -/
theorem c5_passthrough_unchanged {ε : Type} (req : Request) (res : Response)
    (h : (req.method ≠ Method.GET ∧ req.method ≠ Method.HEAD) ∨
        res.status ≠ 200 ∨ is_fresh req res = false) :
    ConditionalGet.after req (Except.ok res : Except ε Response) = Except.ok res := by
  rcases req with ⟨m, rh⟩
  have hcond : ∀ req' : Request, res.status ≠ 200 ∨ is_fresh req' res = false →
      (is_ok res && is_fresh req' res) = false := by
    intro req' h'
    rcases h' with hst | hf
    · have hok : is_ok res = false := by
        show (res.status == 200) = false
        exact beq_eq_false_iff_ne.mpr hst
      simp [hok]
    · simp [hf]
  cases m with
  | GET =>
    rcases h with ⟨hg, _⟩ | h'
    · exact absurd rfl hg
    · simp [ConditionalGet.after, hcond (Request.mk Method.GET rh) h']
  | HEAD =>
    rcases h with ⟨_, hh⟩ | h'
    · exact absurd rfl hh
    · simp [ConditionalGet.after, hcond (Request.mk Method.HEAD rh) h']
  | POST => rfl
  | PUT => rfl
  | DELETE => rfl
  | PATCH => rfl
  | OPTIONS => rfl

/-- C5 witness: a POST request passes through unchanged even though the
evaluation would have been fresh for a GET. -/
theorem c5_witness :
    is_fresh req_c5 res_c5 = true ∧
    ConditionalGet.after req_c5 (Except.ok res_c5 : Except Unit Response) = Except.ok res_c5 :=
  ⟨rfl, c5_passthrough_unchanged req_c5 res_c5 (Or.inl ⟨by decide, by decide⟩)⟩

/-- C6: when the response's Last-Modified is valid text that parses,
the time check is the inclusive comparison of second-granularity Unix
timestamps of the parsed request instant against it. -/
theorem c6_time_compare_inclusive_ge (t : OffsetDateTime) (res : Response)
    (chars : List Char) (lm : OffsetDateTime)
    (hdec : decodeUtf8 (get_and_concat_header res.headers LAST_MODIFIED) = some chars)
    (hparse : parse_http_date chars = Except.ok lm) :
    is_modified_since t res = decide (t.unix_timestamp ≥ lm.unix_timestamp) := by
  unfold is_modified_since
  rw [hdec]
  simp [hparse]

/-- C6 witness: with both instants exactly the Unix epoch, the time
component is true (the comparison is inclusive). -/
theorem c6_witness : is_modified_since t_c6 res_c6 = true :=
  (c6_time_compare_inclusive_ge t_c6 res_c6 "Thu, 01 Jan 1970 00:00:00 GMT".toList
      (PrimitiveDateTime.mk 1970 1 1 0 0 0) rfl rfl).trans (by decide)

/-- C7: non-text values fail softly and position-dependently: a
non-UTF-8 (or empty-decoding) If-Modified-Since makes the time flag
pass as true, while a response Last-Modified that is absent, non-text
or unparsable makes the time check false. -/
theorem c7_position_dependent_soft_failures (ims : Bytes) (t : OffsetDateTime) (res : Response)
    (h1 : decodeUtf8 ims = none ∨ decodeUtf8 ims = some [])
    (h2 : ∀ chars, decodeUtf8 (get_and_concat_header res.headers LAST_MODIFIED) = some chars →
        parse_http_date chars = Except.error ()) :
    ims_flag ims res = some true ∧ is_modified_since t res = false := by
  constructor
  · rcases h1 with h | h <;> simp [ims_flag, h]
  · unfold is_modified_since
    cases hd : decodeUtf8 (get_and_concat_header res.headers LAST_MODIFIED) with
    | none => rfl
    | some chars => simp [h2 chars hd]

/-- C7 witness: a non-UTF-8 If-Modified-Since passes the time flag,
and a non-UTF-8 Last-Modified fails the time check. -/
theorem c7_witness :
    ims_flag [0xFF] res_c7 = some true ∧ is_modified_since t_c7 res_c7 = false :=
  c7_position_dependent_soft_failures [0xFF] t_c7 res_c7 (Or.inl rfl)
    (by
      intro chars hc
      have h0 : (none : Option (List Char)) = some chars := hc
      exact Option.noConfusion h0)

/-- C8: get_and_concat_header, including its single-value fast path,
returns exactly the naive no-separator join of all occurrences of the
header, for every header map and name. -/
theorem c8_concat_refines_naive_join (headers : HeaderMap) (name : String) :
    get_and_concat_header headers name = naive_concat headers name := by
  unfold get_and_concat_header naive_concat
  cases h : get_all headers name with
  | nil => rfl
  | cons v tail =>
    cases tail with
    | nil => simp
    | cons w tail2 => rfl

/-- C9: parse_http_date is exactly the ordered first-success
combination of the three grammars — RFC 1123 style, then RFC 850 style
with numeric month, then the tab-separated asctime-like form — with
every failure collapsed to the single unit error, for every input. -/
theorem c9_three_ordered_fallbacks (s : List Char) :
    parse_http_date s = first_success [parse_rfc1123, parse_rfc850, parse_asctime] s := by
  cases h1 : parse_rfc1123 s <;> cases h2 : parse_rfc850 s <;> cases h3 : parse_asctime s <;>
    simp [parse_http_date, first_success, h1, h2, h3]

/-- C10: an error produced downstream is propagated unchanged, with no
freshness evaluation and no rewriting. -/
theorem c10_err_passthrough {ε : Type} (req : Request) (e : ε) :
    ConditionalGet.after req (Except.error e) = Except.error e := rfl

end Conduit
